import Mathlib

/-!
Verification development for the AgentRank.it python engine
(`src/python-engine/main.py`, `src/python-engine/r2_upload.py`).

The session orchestrator (`event_generator` inside the `/scan/stream`
endpoint) is embedded shallowly: the external collaborators (aiohttp URL
check, LLM construction, browser launch, browser-use agent runs, R2
upload) are modelled as oracle inputs gathered in an `Env` record, and
the generator is a pure function from the request and the oracle to the
list of emitted SSE events plus a list of filesystem/browser effects.
-/

namespace AgentRank

/-- A single task within a multi-task scan (pydantic model `ScanTask`). -/
structure ScanTask where
  name : String
  signal : String
  prompt : String
deriving Repr, DecidableEq

/-- Request for a multi-task scan in a single browser session
(pydantic model `ScanRequest`). -/
structure ScanRequest where
  url : String
  tasks : List ScanTask
  prep_prompt : Option String := none
  record_video : Bool := true
deriving Repr, DecidableEq

/-- One per-task outcome dictionary appended to `results` in
`event_generator`.  A field holds `none` when the corresponding key is
absent from the python dict (failed tasks carry no token keys, successful
tasks carry no `error` key); `results` totals are read back with
`r.get(key, 0)`, modelled by `Option.getD 0`. -/
structure TaskResult where
  signal : String
  success : Bool
  output : Option String := none
  error : Option String := none
  inputTokens : Option Nat := none
  outputTokens : Option Nat := none
deriving Repr, DecidableEq

/-- One SSE event as produced by `sse_event(type, data)`; the payload
fields of each event type are those passed at the corresponding call
site in `main.py`.  The `error` event's `scanId` is optional because the
URL-check error events (lines 182, 185, 188) pass only `message` while
the fatal handler (line 378) also passes `scanId`. -/
inductive Event where
  | start (scanId message : String) (total : Nat)
  | step (step : Nat) (action : String) (status : String) (signal : Option String)
  | progress (task_index total : Nat) (signal name : String)
  | task_complete (signal output : String) (inputTokens outputTokens : Nat)
  | task_failed (signal error : String)
  | complete (results : List TaskResult) (videoUrl : Option String) (scanId : String)
      (totalInputTokens totalOutputTokens : Nat)
  | error (message : String) (scanId : Option String)
deriving Repr, DecidableEq

/-- Filesystem / browser side effects performed by the orchestrator. -/
inductive Effect where
  | mkdirDir (name : String)
  | launchBrowser
  | closeBrowser
  | uploadAttempt (path : String)
  | unlinkFile (path : String)
  | rmtreeDir (name : String)
deriving Repr, DecidableEq

/-- Oracle for the aiohttp URL reachability check: either a response
with a final (post-redirect) URL and status code, or a timeout, or any
other network exception with its message. -/
inductive UrlCheckResult where
  | ok (finalUrl : String) (status : Nat)
  | timeout
  | netError (msg : String)
deriving Repr, DecidableEq

/-- Oracle for the prep `agent.run()` inside `asyncio.wait_for`:
success with its step trace and token counts (`none` models a history
object lacking the token accessors, defaulted to 0 by the `hasattr`
guard), or a timeout, or any other exception. -/
inductive PrepOutcome where
  | ok (trace : List String) (inputTokens outputTokens : Option Nat)
  | timeout
  | failure (msg : String)
deriving Repr, DecidableEq

/-- Oracle for one diagnostic task.  `fatal` models an exception raised
by the `Agent(...)` construction at line 284, which sits outside the
per-task `try` and therefore escapes to the outer handler; `ok` carries
`history.final_result()` (possibly `None`), the step trace and token
counts; `failed` models an exception raised inside the per-task `try`. -/
inductive DiagOutcome where
  | fatal (msg : String)
  | ok (finalResult : Option String) (trace : List String) (inputTokens outputTokens : Option Nat)
  | failed (msg : String)
deriving Repr, DecidableEq

/-- The oracle for one run of `event_generator`: the scan id produced by
`uuid.uuid4()`, the outcome of every external call, and the directory
listing used for the video upload.  A `some msg` in an `Err` field means
that call raised an exception with message `msg`. -/
structure Env where
  scanId : String
  mkdirErr : Option String := none
  urlCheck : UrlCheckResult
  llmErr : Option String := none
  browserErr : Option String := none
  prepOutcome : PrepOutcome := .ok [] none none
  taskOutcome : Nat → DiagOutcome
  closeErr : Option String := none
  videoFiles : List String := []
  uploadResult : Option String := none

section Upload

/-!
Model of `r2_upload.py`: `_upload_file_with_retry` is decorated with
tenacity `retry(stop=stop_after_attempt(3),
wait=wait_exponential(multiplier=1, min=2, max=10), reraise=True)`.
the store oracle maps the 1-based attempt number to that attempt's
outcome.
-/

/-- Delay (seconds) computed by tenacity `wait_exponential` after the
attempt numbered `attemptNumber` fails: `multiplier * 2 ^ (n - 1)`
clamped into `[minD, maxD]`. -/
def waitExponentialDelay (multiplier minD maxD attemptNumber : Nat) : Nat :=
  max minD (min (multiplier * 2 ^ (attemptNumber - 1)) maxD)

/-- Attempt loop of the tenacity `retry` decorator: run attempts
starting at `attempt` with `attemptsLeft` attempts remaining; return the
successful attempt number, or (with `reraise=True`) the last error once
the budget is exhausted. -/
def retryLoop (store : Nat → Except String Unit) (attempt : Nat) :
    Nat → Except String Nat
  | 0 => .error "no attempts"
  | attemptsLeft + 1 =>
    match store attempt with
    | .ok _ => .ok attempt
    | .error e =>
      if attemptsLeft = 0 then .error e
      else retryLoop store (attempt + 1) attemptsLeft

/-- `_upload_file_with_retry`: at most 3 attempts. -/
def uploadFileWithRetry (store : Nat → Except String Unit) : Except String Nat :=
  retryLoop store 1 3

/-- R2 configuration read from the environment in `r2_upload.py`. -/
structure R2Config where
  accountId : String := ""
  accessKey : String := ""
  secretKey : String := ""
  bucketName : String := "agentrank-replays"
  publicUrl : String := ""
deriving Repr, DecidableEq

/-- `get_r2_client` returns a client only when account id and both keys
are configured. -/
def r2Configured (c : R2Config) : Bool :=
  !(c.accountId = "") && !(c.accessKey = "") && !(c.secretKey = "")

/-- Suffix of a path in the sense of `pathlib.Path.suffix`: the final
dotted extension of the last path component, `""` when there is none. -/
def pathSuffix (p : String) : String :=
  let base := ((p.splitOn "/").getLastD "")
  let parts := base.splitOn "."
  if parts.length ≤ 1 then "" else "." ++ parts.getLastD ""

/-- `upload_video(local_path, scan_id)`: returns the public URL on
success and `none` when R2 is unconfigured, the file is missing, or the
retried upload still fails (the surrounding `try` swallows the reraised
store error and returns `None`). -/
def upload_video (cfg : R2Config) (store : Nat → Except String Unit)
    (fileExists : Bool) (localPath scanId : String) : Option String :=
  if !(r2Configured cfg) then none
  else if !fileExists then none
  else
    let extension := if pathSuffix localPath = "" then ".webm" else pathSuffix localPath
    let key := "replays/" ++ scanId ++ extension
    match uploadFileWithRetry store with
    | .ok _ =>
      if !(cfg.publicUrl = "") then some (cfg.publicUrl ++ "/" ++ key)
      else some ("https://" ++ cfg.bucketName ++ "." ++ cfg.accountId ++
        ".r2.cloudflarestorage.com/" ++ key)
    | .error _ => none

/-- Result of the upload block of `event_generator` (main.py lines
342-350): the resulting video URL and whether `cleanup_local_video`
(which unlinks exactly the uploaded file) ran. -/
structure FinalizeResult where
  videoUrl : Option String
  localFileDeleted : Bool
deriving Repr, DecidableEq

/-- The orchestrator's artifact finalization: take the first video file
found by the directory glob, upload it, and unlink it only when the
upload returned a URL. -/
def finalizeVideo (cfg : R2Config) (store : Nat → Except String Unit)
    (scanId : String) (videoFiles : List String) : FinalizeResult :=
  match videoFiles with
  | [] => ⟨none, false⟩
  | path :: _ =>
    match upload_video cfg store true path scanId with
    | some u => ⟨some u, true⟩
    | none => ⟨none, false⟩

end Upload

section Sweeper

/-- One entry of the recordings directory as seen by
`cleanup_old_recordings`: its name, whether it is a directory, and its
`st_mtime`. -/
structure DirEntry where
  name : String
  isDir : Bool
  mtime : Int
deriving Repr, DecidableEq

/-- Directories a single sweep pass of `cleanup_old_recordings` calls
`shutil.rmtree(..., ignore_errors=True)` on: exactly the directory
entries whose modification time is older than `current_time - 3600`. -/
def sweepAttempted (currentTime : Int) (entries : List DirEntry) : List String :=
  ((entries.filter fun d => d.isDir && decide (d.mtime < currentTime - 3600)).map
    DirEntry.name)

/-- One sweep pass: first component is the list of directories whose
removal is attempted, second the ones actually removed given the oracle
`rmtreeFails` (with `ignore_errors=True` a failed removal raises nothing
and the loop continues to the next entry regardless). -/
def sweepOnce (currentTime : Int) (rmtreeFails : String → Bool)
    (entries : List DirEntry) : List String × List String :=
  let attempted := sweepAttempted currentTime entries
  (attempted, attempted.filter fun n => !(rmtreeFails n))

end Sweeper

section Orchestrator

/-- The `if request.prep_prompt:` python truthiness test: a prep prompt
is present only when it is a non-empty string. -/
def hasPrep (req : ScanRequest) : Bool :=
  match req.prep_prompt with
  | some p => !(p = "")
  | none => false

/-- `total_tasks = len(request.tasks) + (1 if request.prep_prompt else 0)`. -/
def totalTasks (req : ScanRequest) : Nat :=
  req.tasks.length + (if hasPrep req then 1 else 0)

/-- Emission of one `step` event per entry of a history trace
(`for i, step in enumerate(history.history)`): the shared counter is
incremented before each event and each action string is truncated to
200 characters.  Returns the events and the updated counter. -/
def traceSteps (signal : Option String) (stepCount : Nat) :
    List String → List Event × Nat
  | [] => ([], stepCount)
  | s :: rest =>
    let tail := traceSteps signal (stepCount + 1) rest
    (Event.step (stepCount + 1) (s.take 200) "done" signal :: tail.1, tail.2)

/-- The prep block of `event_generator` (main.py lines 216-267): the
`progress` and `Running prep` events, then either the trace steps and a
`task_complete`, or a `task_failed` on timeout or failure.  Returns the
events and the updated shared step counter. -/
def runPrep (url prep : String) (total stepCount : Nat) (outcome : PrepOutcome) :
    List Event × Nat :=
  let header : List Event :=
    [Event.progress 1 total "prep" "Prep Action",
     Event.step (stepCount + 1) ("Running prep: " ++ prep.take 50 ++ "...") "running" none]
  match outcome with
  | .ok trace inTok outTok =>
    let t := traceSteps (some "prep") stepCount trace
    (header ++ t.1 ++
      [Event.task_complete "prep" "Prep action completed" (inTok.getD 0) (outTok.getD 0)],
     t.2)
  | .timeout =>
    (header ++
      [Event.task_failed "prep"
        ("Prep action timed out after 60 seconds. URL may be unreachable: " ++ url)],
     stepCount)
  | .failure msg =>
    (header ++ [Event.task_failed "prep" ("Prep action failed: " ++ msg.take 200)],
     stepCount)

/-- The diagnostic loop of `event_generator` (main.py lines 270-331):
for each task emit `progress` and a `Running:` step, then consult the
oracle.  A `fatal` outcome (the `Agent(...)` constructor raising outside
the per-task `try`) stops the loop and is reported in the fourth
component; `ok` emits the trace steps, appends a successful
`TaskResult` and emits `task_complete`; `failed` appends a failed
`TaskResult` and emits `task_failed`, and the loop continues.  Returns
(events, final step counter, appended results, fatal error). -/
def runDiagTasks (total : Nat) (outcome : Nat → DiagOutcome) :
    List ScanTask → Nat → Nat → Nat →
    List Event × Nat × List TaskResult × Option String
  | [], _, _, c => ([], c, [], none)
  | t :: rest, i, taskIndex, c =>
    let header : List Event :=
      [Event.progress (taskIndex + 1) total t.signal t.name,
       Event.step (c + 1) ("Running: " ++ t.name) "running" none]
    match outcome i with
    | .fatal msg => (header, c, [], some msg)
    | .ok res trace inTok outTok =>
      let tr := traceSteps (some t.signal) c trace
      let r : TaskResult :=
        { signal := t.signal, success := true, output := res,
          inputTokens := some (inTok.getD 0), outputTokens := some (outTok.getD 0) }
      let tc := Event.task_complete t.signal
        (match res with
         | some s => if s = "" then "Completed" else s.take 500
         | none => "Completed")
        (inTok.getD 0) (outTok.getD 0)
      let rec' := runDiagTasks total outcome rest (i + 1) (taskIndex + 1) tr.2
      (header ++ tr.1 ++ tc :: rec'.1, rec'.2.1, r :: rec'.2.2.1, rec'.2.2.2)
    | .failed msg =>
      let r : TaskResult := { signal := t.signal, success := false, error := some msg }
      let rec' := runDiagTasks total outcome rest (i + 1) (taskIndex + 1) c
      (header ++ Event.task_failed t.signal msg :: rec'.1,
       rec'.2.1, r :: rec'.2.2.1, rec'.2.2.2)

/-- The prep phase as reached by the orchestrator after the browser is
launched: skipped entirely when the prep prompt is absent or empty. -/
def prepPhase (req : ScanRequest) (env : Env) (url : String) : List Event × Nat :=
  if hasPrep req then
    runPrep url (req.prep_prompt.getD "") (totalTasks req) 0 env.prepOutcome
  else ([], 0)

/-- The diagnostic phase: `task_index` continues from the prep phase and
the step counter continues from the prep phase's final value. -/
def diagPhase (req : ScanRequest) (env : Env) (url : String) :
    List Event × Nat × List TaskResult × Option String :=
  runDiagTasks (totalTasks req) env.taskOutcome req.tasks 0
    (if hasPrep req then 1 else 0) (prepPhase req env url).2

/-- How the body of `event_generator`'s `try` block finished: ran to the
end (`finished`), returned early after a URL-check error event
(`earlyReturn`), or escaped with an exception that the outer `except`
turns into a terminal `error` event (`raised`). -/
inductive TryOutcome where
  | finished
  | earlyReturn
  | raised (msg : String)
deriving Repr, DecidableEq

/-- The upload block (main.py lines 342-350): a `Uploading video...`
step, then — only when the glob found a file — the oracle's upload
result; a returned URL triggers `cleanup_local_video` on that file and a
`Video uploaded` step.  Returns (events, video url, effects). -/
def uploadPhase (req : ScanRequest) (env : Env) (c2 : Nat) :
    List Event × Option String × List Effect :=
  if req.record_video then
    let upStep := Event.step (c2 + 2) "Uploading video..." "running" none
    match env.videoFiles with
    | [] => ([upStep], none, [])
    | path :: _ =>
      match env.uploadResult with
      | some u =>
        ([upStep, Event.step (c2 + 2) "Video uploaded" "done" none], some u,
         [Effect.uploadAttempt path, Effect.unlinkFile path])
      | none => ([upStep], none, [Effect.uploadAttempt path])
  else ([], none, [])

/-- The closing / upload / complete tail of the happy path (main.py
lines 334-365), entered with step counter `c2` and the accumulated
`results`. -/
def happyTail (req : ScanRequest) (env : Env) (c2 : Nat) (results : List TaskResult) :
    List Event × List Effect × TryOutcome :=
  let closingEv := Event.step (c2 + 1) "Closing browser" "running" none
  match env.closeErr with
  | some m => ([closingEv], [], .raised m)
  | none =>
    let closedEv := Event.step (c2 + 1) "Browser closed" "done" none
    let upload := uploadPhase req env c2
    let totalIn := (results.map fun r => r.inputTokens.getD 0).sum
    let totalOut := (results.map fun r => r.outputTokens.getD 0).sum
    (closingEv :: closedEv :: upload.1 ++
      [Event.complete results upload.2.1 env.scanId totalIn totalOut],
     Effect.closeBrowser :: upload.2.2, .finished)

/-- The body of `event_generator`'s `try` block (main.py lines 155-365),
returning the emitted events, the performed effects, and how the block
finished. -/
def tryBody (req : ScanRequest) (env : Env) : List Event × List Effect × TryOutcome :=
  match env.mkdirErr with
  | some m => ([], [], .raised m)
  | none =>
    let eff0 := [Effect.mkdirDir env.scanId]
    let startEv := Event.start env.scanId "Starting scan..." (totalTasks req)
    let checkEv := Event.step 0 ("Checking URL: " ++ req.url) "running" none
    match env.urlCheck with
    | .timeout =>
      ([startEv, checkEv,
        Event.error ("URL timed out after 10 seconds: " ++ req.url) none],
       eff0, .earlyReturn)
    | .netError m =>
      ([startEv, checkEv,
        Event.error ("URL is unreachable: " ++ req.url ++ ". Error: " ++ m.take 100) none],
       eff0, .earlyReturn)
    | .ok finalUrl status =>
      let redirectEvs : List Event :=
        if finalUrl = req.url then []
        else [Event.step 0 ("Redirected to: " ++ finalUrl) "done" none]
      if 200 ≤ status ∧ status < 300 then
        let verifiedEv :=
          Event.step 0 ("URL verified (status 200): " ++ finalUrl) "done" none
        match env.llmErr with
        | some m =>
          (startEv :: checkEv :: redirectEvs ++ [verifiedEv], eff0, .raised m)
        | none =>
          let launchingEv := Event.step 0 "Launching browser" "running" none
          match env.browserErr with
          | some m =>
            (startEv :: checkEv :: redirectEvs ++ [verifiedEv, launchingEv],
             eff0, .raised m)
          | none =>
            let eff1 := eff0 ++ [Effect.launchBrowser]
            let launchedEv := Event.step 0 "Browser launched" "done" none
            let prep := prepPhase req env finalUrl
            let diag := diagPhase req env finalUrl
            let pre := startEv :: checkEv :: redirectEvs ++
              [verifiedEv, launchingEv, launchedEv] ++ prep.1 ++ diag.1
            match diag.2.2.2 with
            | some m => (pre, eff1, .raised m)
            | none =>
              let tail := happyTail req env diag.2.1 diag.2.2.1
              (pre ++ tail.1, eff1 ++ tail.2.1, tail.2.2)
      else
        (startEv :: checkEv :: redirectEvs ++
          [Event.error ("URL returned status " ++ toString status ++
            " (expected 200-299): " ++ finalUrl) none],
         eff0, .earlyReturn)

/-- Events plus effects of one full run of the `/scan/stream`
`event_generator`: the `try` body's output, followed by the outer
`except` handler's `error` event (carrying the scan id) when the body
raised. -/
def eventGenerator (req : ScanRequest) (env : Env) : List Event × List Effect :=
  let t := tryBody req env
  match t.2.2 with
  | .raised m => (t.1 ++ [Event.error m (some env.scanId)], t.2.1)
  | _ => (t.1, t.2.1)

end Orchestrator

section Observers

/-- Terminal events of the stream protocol: `complete` and `error`. -/
def Event.isTerminal : Event → Bool
  | .complete _ _ _ _ _ => true
  | .error _ _ => true
  | _ => false

/-- No event of the list is terminal. -/
def NoTerminal (l : List Event) : Prop := ∀ e ∈ l, e.isTerminal = false

/-- The list ends in a terminal event and contains no other terminal
event: this is the "exactly one terminal event, and it is last"
property of the stream protocol. -/
def EndsTerminal (l : List Event) : Prop :=
  ∃ pre e, l = pre ++ [e] ∧ e.isTerminal = true ∧ NoTerminal pre

/-- The `step` payload values of a stream, in emission order. -/
def stepValues (l : List Event) : List Nat :=
  l.filterMap fun e =>
    match e with
    | .step n _ _ _ => some n
    | _ => none

/-- The signals of the `progress` events of a stream, in order: one
`progress` event is emitted per started task. -/
def progressSignals (l : List Event) : List String :=
  l.filterMap fun e =>
    match e with
    | .progress _ _ s _ => some s
    | _ => none

/-- The signals of the per-task terminal events (`task_complete` /
`task_failed`) of a stream, in order. -/
def taskEventSignals (l : List Event) : List String :=
  l.filterMap fun e =>
    match e with
    | .task_complete s _ _ _ => some s
    | .task_failed s _ => some s
    | _ => none

/-- Input-token contribution of one diagnostic outcome to the totals of
the `complete` event: the reported count (defaulted to 0) on success,
0 otherwise. -/
def DiagOutcome.inputTok : DiagOutcome → Nat
  | .ok _ _ it _ => it.getD 0
  | _ => 0

/-- Output-token contribution of one diagnostic outcome. -/
def DiagOutcome.outputTok : DiagOutcome → Nat
  | .ok _ _ _ ot => ot.getD 0
  | _ => 0

/-- Step-value envelope of a stream segment run from shared counter `c`
to `c'`: the counter grows, the segment's step values are
non-decreasing, and each lies in `[c + 1, c' + 1]`.  Two adjacent
segments satisfying this compose. -/
def StepSpan (c : Nat) (l : List Event) (c' : Nat) : Prop :=
  c ≤ c' ∧ List.Chain' (· ≤ ·) (stepValues l) ∧
    ∀ v ∈ stepValues l, c + 1 ≤ v ∧ v ≤ c' + 1

/-- The stream ends with event `e` and no earlier event is terminal. -/
def EndsWith (l : List Event) (e : Event) : Prop :=
  ∃ pre, l = pre ++ [e] ∧ NoTerminal pre

/-- The full event stream of a run in which the URL check succeeded
with final URL `u`, no component raised outside a task boundary, and
the `complete` event was reached. -/
def happyEvents (req : ScanRequest) (env : Env) (u : String) : List Event :=
  Event.start env.scanId "Starting scan..." (totalTasks req) ::
  Event.step 0 ("Checking URL: " ++ req.url) "running" none ::
  ((if u = req.url then [] else [Event.step 0 ("Redirected to: " ++ u) "done" none]) ++
   (Event.step 0 ("URL verified (status 200): " ++ u) "done" none ::
    Event.step 0 "Launching browser" "running" none ::
    Event.step 0 "Browser launched" "done" none ::
    ((prepPhase req env u).1 ++
     ((diagPhase req env u).1 ++
      (Event.step ((diagPhase req env u).2.1 + 1) "Closing browser" "running" none ::
       Event.step ((diagPhase req env u).2.1 + 1) "Browser closed" "done" none ::
       ((uploadPhase req env (diagPhase req env u).2.1).1 ++
        [Event.complete (diagPhase req env u).2.2.1
          (uploadPhase req env (diagPhase req env u).2.1).2.1 env.scanId
          (((diagPhase req env u).2.2.1.map fun r => r.inputTokens.getD 0).sum)
          (((diagPhase req env u).2.2.1.map fun r => r.outputTokens.getD 0).sum)]))))))

/-- The input-token contributions the diagnostic loop derives from its
oracle for a task list starting at oracle index `i`, in task order. -/
def expectedInputTokens (oc : Nat → DiagOutcome) (i : Nat) : List ScanTask → List Nat
  | [] => []
  | _ :: rest => (oc i).inputTok :: expectedInputTokens oc (i + 1) rest

/-- The output-token contributions the diagnostic loop derives from its
oracle for a task list starting at oracle index `i`, in task order. -/
def expectedOutputTokens (oc : Nat → DiagOutcome) (i : Nat) : List ScanTask → List Nat
  | [] => []
  | _ :: rest => (oc i).outputTok :: expectedOutputTokens oc (i + 1) rest

end Observers

section Fixtures

/-- Concrete diagnostic task used by witnesses. -/
def taskA : ScanTask := ⟨"Task A", "sigA", "do A"⟩

/-- Concrete diagnostic task used by witnesses. -/
def taskB : ScanTask := ⟨"Task B", "sigB", "do B"⟩

/-- Concrete request with a prep prompt and two diagnostic tasks. -/
def reqMain : ScanRequest := ⟨"http://e.com", [taskA, taskB], some "accept cookies", true⟩

/-- Concrete request with no tasks, no prep prompt and recording off. -/
def reqBare : ScanRequest := ⟨"http://e.com", [], none, false⟩

/-- Concrete video path used by witnesses. -/
def vidPath : String := "/app/recordings/abc12345/v.webm"

/-- Concrete oracle for a full happy run: prep times out, the first
task fails, the second succeeds with a two-step trace and token counts,
and the video upload succeeds. -/
def envHappy : Env :=
  { scanId := "abc12345", urlCheck := .ok "http://e.com" 200,
    prepOutcome := .timeout,
    taskOutcome := fun i =>
      if i = 0 then .failed "boom"
      else .ok (some "answer") ["s1", "s2"] (some 5) (some 7),
    videoFiles := [vidPath], uploadResult := some "https://r/v" }

/-- Concrete oracle where the URL check answers 404. -/
def env404 : Env :=
  { scanId := "abc12345", urlCheck := .ok "http://e.com" 404,
    taskOutcome := fun _ => .failed "x" }

/-- Concrete oracle where the URL check times out. -/
def envTimeout : Env :=
  { scanId := "abc12345", urlCheck := .timeout,
    taskOutcome := fun _ => .failed "x" }

/-- Concrete oracle where the browser launch raises, driving the fatal
path. -/
def envRaised : Env :=
  { scanId := "abc12345", urlCheck := .ok "http://e.com" 200,
    browserErr := some "launch exploded",
    taskOutcome := fun _ => .failed "x" }

/-- The error message of the 404 URL-check error event. -/
def msg404 : String := "URL returned status 404 (expected 200-299): http://e.com"

/-- Store oracle that fails on the first two attempts and succeeds from
the third on. -/
def storeFailTwice : Nat → Except String Unit :=
  fun n => if n < 3 then .error "transient" else .ok ()

/-- Store oracle that always fails. -/
def storeAlwaysFail : Nat → Except String Unit := fun _ => .error "down"

/-- Store oracle that succeeds only from the fourth attempt on, past
the retry budget. -/
def storeLate : Nat → Except String Unit :=
  fun n => if n < 4 then .error "transient" else .ok ()

/-- A configured R2 environment for witnesses. -/
def cfgW : R2Config :=
  { accountId := "acct", accessKey := "ak", secretKey := "sk",
    bucketName := "agentrank-replays", publicUrl := "https://replays.agentrank.it" }

/-- The diagnostic `results` list produced by `envHappy` (and
`envPrepOk`) on `reqMain`. -/
def resultsHappy : List TaskResult :=
  [⟨"sigA", false, none, some "boom", none, none⟩,
   ⟨"sigB", true, some "answer", none, some 5, some 7⟩]

/-- Variant of `envHappy` whose prep action succeeds with a one-step
trace and token counts 2/3. -/
def envPrepOk : Env :=
  { scanId := "abc12345", urlCheck := .ok "http://e.com" 200,
    prepOutcome := .ok ["p1"] (some 2) (some 3),
    taskOutcome := fun i =>
      if i = 0 then .failed "boom"
      else .ok (some "answer") ["s1", "s2"] (some 5) (some 7),
    videoFiles := [vidPath], uploadResult := some "https://r/v" }

/-- Recording directory entries for sweeper witnesses: one stale
directory, one created a second ago, one stale plain file. -/
def sweepEntries : List DirEntry :=
  [⟨"old1", true, 1000⟩, ⟨"fresh", true, 99999⟩, ⟨"oldfile", false, 0⟩]

/-- Sweep time used by the sweeper witnesses. -/
def sweepNow : Int := 100000

/-- Minimal oracle for a bare happy run (no prep, no tasks, recording
off). -/
def envBare : Env :=
  { scanId := "abc12345", urlCheck := .ok "http://e.com" 200,
    taskOutcome := fun _ => .failed "x" }

end Fixtures

section UploadTheorems

theorem retryLoop_ok_of_third (store : Nat → Except String Unit)
    (e1 e2 : String) (h1 : store 1 = .error e1) (h2 : store 2 = .error e2)
    (h3 : store 3 = .ok ()) : uploadFileWithRetry store = .ok 3 := by
  simp [uploadFileWithRetry, retryLoop, h1, h2, h3]

theorem retryLoop_error_of_three (store : Nat → Except String Unit)
    (e1 e2 e3 : String) (h1 : store 1 = .error e1) (h2 : store 2 = .error e2)
    (h3 : store 3 = .error e3) : uploadFileWithRetry store = .error e3 := by
  simp [uploadFileWithRetry, retryLoop, h1, h2, h3]

theorem upload_video_isSome_of_retry_ok (cfg : R2Config)
    (store : Nat → Except String Unit) (path scanId : String) (k : Nat)
    (hr : uploadFileWithRetry store = .ok k) (hcfg : r2Configured cfg = true) :
    (upload_video cfg store true path scanId).isSome = true := by
  simp only [upload_video, hcfg, Bool.not_true, Bool.false_eq_true, if_false,
    Bool.not_false, if_true, hr]
  split <;> simp

theorem upload_video_none_of_retry_error (cfg : R2Config)
    (store : Nat → Except String Unit) (path scanId : String) (e : String)
    (hr : uploadFileWithRetry store = .error e) :
    upload_video cfg store true path scanId = none := by
  simp only [upload_video, hr]
  split
  · rfl
  · split
    · rfl
    · rfl

/-- Claim C6: the video upload is retried for at most 3 attempts with
the tenacity exponential backoff (delays clamped into [2s, 10s]); a
store failing twice then succeeding yields a URL and deletion of the
local file, a store that always fails (or only recovers after the
3-attempt budget) yields `none` with the local file left in place, and
the store error is not re-thrown. -/
theorem upload_retry_bounded_behavior
    (cfg : R2Config) (store2 storeF storeL : Nat → Except String Unit)
    (path scanId : String) (rest : List String)
    (hcfg : r2Configured cfg = true)
    (h21 : ∃ e, store2 1 = .error e) (h22 : ∃ e, store2 2 = .error e)
    (h23 : store2 3 = .ok ())
    (hF : ∀ n, ∃ e, storeF n = .error e)
    (hL : ∀ n, n ≤ 3 → ∃ e, storeL n = .error e) :
    ((finalizeVideo cfg store2 scanId (path :: rest)).videoUrl.isSome = true ∧
      (finalizeVideo cfg store2 scanId (path :: rest)).localFileDeleted = true) ∧
    finalizeVideo cfg storeF scanId (path :: rest) = ⟨none, false⟩ ∧
    finalizeVideo cfg storeL scanId (path :: rest) = ⟨none, false⟩ ∧
    (∀ n, 2 ≤ waitExponentialDelay 1 2 10 n ∧ waitExponentialDelay 1 2 10 n ≤ 10) := by
  obtain ⟨e1, h21⟩ := h21
  obtain ⟨e2, h22⟩ := h22
  obtain ⟨eF1, hF1⟩ := hF 1
  obtain ⟨eF2, hF2⟩ := hF 2
  obtain ⟨eF3, hF3⟩ := hF 3
  obtain ⟨eL1, hL1⟩ := hL 1 (by omega)
  obtain ⟨eL2, hL2⟩ := hL 2 (by omega)
  obtain ⟨eL3, hL3⟩ := hL 3 (by omega)
  have hs2 := upload_video_isSome_of_retry_ok cfg store2 path scanId 3
    (retryLoop_ok_of_third store2 e1 e2 h21 h22 h23) hcfg
  have hsF := upload_video_none_of_retry_error cfg storeF path scanId eF3
    (retryLoop_error_of_three storeF eF1 eF2 eF3 hF1 hF2 hF3)
  have hsL := upload_video_none_of_retry_error cfg storeL path scanId eL3
    (retryLoop_error_of_three storeL eL1 eL2 eL3 hL1 hL2 hL3)
  refine ⟨?_, ?_, ?_, ?_⟩
  · obtain ⟨u, hu⟩ := Option.isSome_iff_exists.mp hs2
    simp [finalizeVideo, hu]
  · simp [finalizeVideo, hsF]
  · simp [finalizeVideo, hsL]
  · intro n
    constructor
    · exact le_max_left 2 _
    · simp only [waitExponentialDelay]
      omega

/-- Witness for `upload_retry_bounded_behavior` on the fixture stores. -/
theorem upload_retry_bounded_behavior_witness :
    (finalizeVideo cfgW storeFailTwice "abc12345" [vidPath]).localFileDeleted = true ∧
    finalizeVideo cfgW storeAlwaysFail "abc12345" [vidPath] = ⟨none, false⟩ ∧
    finalizeVideo cfgW storeLate "abc12345" [vidPath] = ⟨none, false⟩ := by
  have h := upload_retry_bounded_behavior cfgW storeFailTwice storeAlwaysFail storeLate
    vidPath "abc12345" [] (by decide) ⟨"transient", rfl⟩ ⟨"transient", rfl⟩
    rfl (fun n => ⟨"down", rfl⟩)
    (fun n hn => ⟨"transient", by simp only [storeLate, if_pos (by omega : n < 4)]⟩)
  exact ⟨h.1.2, h.2.1, h.2.2.1⟩

end UploadTheorems

section SweeperTheorems

/-- Claim C10: a sweep pass attempts removal of exactly the recording
directories whose modification time is strictly older than the fixed
1-hour (3600s) window; fresher directories and non-directories survive;
which removals are attempted does not depend on which `rmtree` calls
fail (per-entry errors are ignored), and only attempted directories can
be removed. -/
theorem sweep_removes_exactly_expired
    (now : Int) (fails : String → Bool) (entries : List DirEntry) (d : DirEntry)
    (hmem : d ∈ entries) (hdir : d.isDir = true)
    (hnodup : (entries.map DirEntry.name).Nodup) :
    (d.name ∈ (sweepOnce now fails entries).1 ↔ d.mtime < now - 3600) ∧
    (∀ g, (sweepOnce now fails entries).1 = (sweepOnce now g entries).1) ∧
    (sweepOnce now fails entries).2 ⊆ (sweepOnce now fails entries).1 := by
  refine ⟨?_, fun g => rfl, ?_⟩
  · constructor
    · intro h
      simp only [sweepOnce, sweepAttempted, List.mem_map, List.mem_filter] at h
      obtain ⟨d', ⟨hd'mem, hd'cond⟩, hname⟩ := h
      have : d' = d := List.inj_on_of_nodup_map hnodup hd'mem hmem hname
      subst this
      simpa using (Bool.and_elim_right hd'cond)
    · intro h
      simp only [sweepOnce, sweepAttempted, List.mem_map, List.mem_filter]
      exact ⟨d, ⟨hmem, by simp [hdir, h]⟩, rfl⟩
  · intro x hx
    simp only [sweepOnce, List.mem_filter] at hx
    exact hx.1

/-- Witness for `sweep_removes_exactly_expired`: the stale directory is
removed while the directory modified one second before the sweep
survives. -/
theorem sweep_removes_exactly_expired_witness :
    ("old1" ∈ (sweepOnce sweepNow (fun _ => false) sweepEntries).1) ∧
    ("fresh" ∉ (sweepOnce sweepNow (fun _ => false) sweepEntries).1) := by
  have hold := sweep_removes_exactly_expired sweepNow (fun _ => false) sweepEntries
    ⟨"old1", true, 1000⟩ (by decide) (by decide) (by decide)
  have hfresh := sweep_removes_exactly_expired sweepNow (fun _ => false) sweepEntries
    ⟨"fresh", true, 99999⟩ (by decide) (by decide) (by decide)
  exact ⟨hold.1.mpr (by decide), fun h => absurd (hfresh.1.mp h) (by decide)⟩

end SweeperTheorems

section StreamLemmas

theorem noTerminal_nil : NoTerminal [] := by
  intro e he
  cases he

theorem noTerminal_cons {e : Event} {l : List Event} (he : e.isTerminal = false)
    (hl : NoTerminal l) : NoTerminal (e :: l) := by
  intro x hx
  rcases List.mem_cons.mp hx with h | h
  · exact h ▸ he
  · exact hl x h

theorem noTerminal_append {l₁ l₂ : List Event} (h₁ : NoTerminal l₁)
    (h₂ : NoTerminal l₂) : NoTerminal (l₁ ++ l₂) := by
  intro x hx
  rcases List.mem_append.mp hx with h | h
  · exact h₁ x h
  · exact h₂ x h

theorem noTerminal_singleton {e : Event} (he : e.isTerminal = false) :
    NoTerminal [e] := noTerminal_cons he noTerminal_nil

theorem endsTerminal_snoc {l : List Event} {e : Event} (hl : NoTerminal l)
    (he : e.isTerminal = true) : EndsTerminal (l ++ [e]) := ⟨l, e, rfl, he, hl⟩

theorem terminal_mem_snoc {l : List Event} {e x : Event} (hl : NoTerminal l)
    (hx : x ∈ l ++ [e]) (ht : x.isTerminal = true) : x = e := by
  rcases List.mem_append.mp hx with h | h
  · exact absurd ht (by simp [hl x h])
  · simpa using h

theorem traceSteps_count (sig : Option String) (c : Nat) (l : List String) :
    (traceSteps sig c l).2 = c + l.length := by
  induction l generalizing c with
  | nil => simp [traceSteps]
  | cons s rest ih =>
    simp only [traceSteps, List.length_cons, ih (c + 1)]
    omega

theorem traceSteps_noTerminal (sig : Option String) (c : Nat) (l : List String) :
    NoTerminal (traceSteps sig c l).1 := by
  induction l generalizing c with
  | nil => exact noTerminal_nil
  | cons s rest ih => exact noTerminal_cons rfl (ih (c + 1))

theorem traceSteps_stepValues (sig : Option String) (c : Nat) (l : List String) :
    stepValues (traceSteps sig c l).1 =
      (List.range l.length).map fun i => c + 1 + i := by
  induction l generalizing c with
  | nil => simp [traceSteps, stepValues]
  | cons s rest ih =>
    simp only [traceSteps, stepValues, List.filterMap_cons, List.length_cons,
      List.range_succ_eq_map, List.map_cons, List.map_map]
    refine congrArg₂ _ (by omega) ?_
    have := ih (c + 1)
    simp only [stepValues] at this
    rw [this]
    apply List.map_congr_left
    intro i _
    simp
    omega

theorem traceSteps_progressSignals (sig : Option String) (c : Nat) (l : List String) :
    progressSignals (traceSteps sig c l).1 = [] := by
  induction l generalizing c with
  | nil => simp [traceSteps, progressSignals]
  | cons s rest ih =>
    simp only [traceSteps, progressSignals, List.filterMap_cons]
    exact ih (c + 1)

theorem traceSteps_taskEventSignals (sig : Option String) (c : Nat) (l : List String) :
    taskEventSignals (traceSteps sig c l).1 = [] := by
  induction l generalizing c with
  | nil => simp [traceSteps, taskEventSignals]
  | cons s rest ih =>
    simp only [traceSteps, taskEventSignals, List.filterMap_cons]
    exact ih (c + 1)

theorem stepSpan_append {c cm c' : Nat} {l₁ l₂ : List Event}
    (h₁ : StepSpan c l₁ cm) (h₂ : StepSpan cm l₂ c') : StepSpan c (l₁ ++ l₂) c' := by
  obtain ⟨hc₁, hch₁, hb₁⟩ := h₁
  obtain ⟨hc₂, hch₂, hb₂⟩ := h₂
  refine ⟨le_trans hc₁ hc₂, ?_, ?_⟩
  · simp only [stepValues, List.filterMap_append]
    rw [List.chain'_append]
    refine ⟨hch₁, hch₂, ?_⟩
    intro x hx y hy
    have hxm : x ∈ stepValues l₁ := List.mem_of_mem_getLast? hx
    have hym : y ∈ stepValues l₂ := List.mem_of_mem_head? hy
    have := (hb₁ x hxm).2
    have := (hb₂ y hym).1
    omega
  · intro v hv
    simp only [stepValues, List.filterMap_append, List.mem_append] at hv
    rcases hv with h | h
    · have := hb₁ v h
      omega
    · have := hb₂ v h
      omega

theorem traceSteps_stepSpan (sig : Option String) (c : Nat) (l : List String) :
    StepSpan c (traceSteps sig c l).1 (traceSteps sig c l).2 := by
  induction l generalizing c with
  | nil =>
    exact ⟨le_refl c, by simp [traceSteps, stepValues], by simp [traceSteps, stepValues]⟩
  | cons s rest ih =>
    obtain ⟨hc, hch, hb⟩ := ih (c + 1)
    refine ⟨?_, ?_, ?_⟩
    · simp only [traceSteps]
      omega
    · simp only [traceSteps, stepValues, List.filterMap_cons]
      rw [List.chain'_cons']
      refine ⟨?_, hch⟩
      intro y hy
      have hym : y ∈ stepValues (traceSteps sig (c + 1) rest).1 :=
        List.mem_of_mem_head? hy
      have := (hb y hym).1
      omega
    · intro v hv
      simp only [traceSteps, stepValues, List.filterMap_cons, List.mem_cons] at hv
      simp only [traceSteps]
      rcases hv with h | h
      · omega
      · have := hb v h
        omega

theorem stepValues_nil : stepValues [] = [] := rfl

theorem stepValues_append (l₁ l₂ : List Event) :
    stepValues (l₁ ++ l₂) = stepValues l₁ ++ stepValues l₂ :=
  List.filterMap_append l₁ l₂ _

theorem stepValues_cons_step (n : Nat) (a st : String) (sg : Option String)
    (l : List Event) : stepValues (Event.step n a st sg :: l) = n :: stepValues l := rfl

theorem stepValues_cons_progress (ti tot : Nat) (s nm : String) (l : List Event) :
    stepValues (Event.progress ti tot s nm :: l) = stepValues l := rfl

theorem stepValues_cons_task_complete (s o : String) (a b : Nat) (l : List Event) :
    stepValues (Event.task_complete s o a b :: l) = stepValues l := rfl

theorem stepValues_cons_task_failed (s e : String) (l : List Event) :
    stepValues (Event.task_failed s e :: l) = stepValues l := rfl

theorem stepValues_cons_start (s m : String) (tot : Nat) (l : List Event) :
    stepValues (Event.start s m tot :: l) = stepValues l := rfl

theorem stepValues_cons_complete (r : List TaskResult) (v : Option String)
    (s : String) (a b : Nat) (l : List Event) :
    stepValues (Event.complete r v s a b :: l) = stepValues l := rfl

theorem stepValues_cons_error (m : String) (sid : Option String) (l : List Event) :
    stepValues (Event.error m sid :: l) = stepValues l := rfl

theorem stepSpan_of_no_steps {c : Nat} {l : List Event} (h : stepValues l = []) :
    StepSpan c l c := ⟨le_refl c, by simp [h], by simp [h]⟩

theorem stepSpan_of_single_step {c : Nat} {l : List Event}
    (h : stepValues l = [c + 1]) : StepSpan c l c :=
  ⟨le_refl c, by rw [h]; exact List.chain'_singleton _, by rw [h]; simp⟩

theorem stepSpan_mono_right {c c' c'' : Nat} {l : List Event} (h : StepSpan c l c')
    (hle : c' ≤ c'') : StepSpan c l c'' := by
  refine ⟨le_trans h.1 hle, h.2.1, ?_⟩
  intro v hv
  have := h.2.2 v hv
  omega

theorem runPrep_noTerminal (url prep : String) (total c : Nat) (o : PrepOutcome) :
    NoTerminal (runPrep url prep total c o).1 := by
  have hd : NoTerminal [Event.progress 1 total "prep" "Prep Action",
      Event.step (c + 1) ("Running prep: " ++ prep.take 50 ++ "...") "running" none] :=
    noTerminal_cons rfl (noTerminal_singleton rfl)
  cases o with
  | ok trace it ot =>
    exact noTerminal_append (noTerminal_append hd (traceSteps_noTerminal _ _ _))
      (noTerminal_singleton rfl)
  | timeout => exact noTerminal_append hd (noTerminal_singleton rfl)
  | failure m => exact noTerminal_append hd (noTerminal_singleton rfl)

theorem runPrep_stepSpan (url prep : String) (total c : Nat) (o : PrepOutcome) :
    StepSpan c (runPrep url prep total c o).1 (runPrep url prep total c o).2 := by
  cases o with
  | ok trace it ot =>
    refine stepSpan_append (stepSpan_append ?_ (traceSteps_stepSpan _ _ _)) ?_
    · exact stepSpan_of_single_step (by simp [stepValues])
    · exact stepSpan_of_no_steps rfl
  | timeout => exact stepSpan_of_single_step (by simp [runPrep, stepValues])
  | failure m => exact stepSpan_of_single_step (by simp [runPrep, stepValues])

theorem runPrep_progressSignals (url prep : String) (total c : Nat) (o : PrepOutcome) :
    progressSignals (runPrep url prep total c o).1 = ["prep"] := by
  cases o with
  | ok trace it ot =>
    simp only [runPrep, progressSignals, List.filterMap_append, List.filterMap_cons]
    have := traceSteps_progressSignals (some "prep") c trace
    simp only [progressSignals] at this
    simp [this]
  | timeout => simp [runPrep, progressSignals]
  | failure m => simp [runPrep, progressSignals]

theorem runPrep_taskEventSignals (url prep : String) (total c : Nat) (o : PrepOutcome) :
    taskEventSignals (runPrep url prep total c o).1 = ["prep"] := by
  cases o with
  | ok trace it ot =>
    simp only [runPrep, taskEventSignals, List.filterMap_append, List.filterMap_cons]
    have := traceSteps_taskEventSignals (some "prep") c trace
    simp only [taskEventSignals] at this
    simp [this]
  | timeout => simp [runPrep, taskEventSignals]
  | failure m => simp [runPrep, taskEventSignals]

theorem runDiag_noTerminal (total : Nat) (oc : Nat → DiagOutcome)
    (ts : List ScanTask) (i ti c : Nat) :
    NoTerminal (runDiagTasks total oc ts i ti c).1 := by
  induction ts generalizing i ti c with
  | nil => exact noTerminal_nil
  | cons t rest ih =>
    have hd : NoTerminal [Event.progress (ti + 1) total t.signal t.name,
        Event.step (c + 1) ("Running: " ++ t.name) "running" none] :=
      noTerminal_cons rfl (noTerminal_singleton rfl)
    cases ho : oc i with
    | fatal m =>
      simp only [runDiagTasks, ho]
      exact hd
    | ok res trace it ot =>
      simp only [runDiagTasks, ho]
      exact noTerminal_append (noTerminal_append hd (traceSteps_noTerminal _ _ _))
        (noTerminal_cons rfl (ih _ _ _))
    | failed m =>
      simp only [runDiagTasks, ho]
      exact noTerminal_append hd (noTerminal_cons rfl (ih _ _ _))

theorem runDiag_stepSpan (total : Nat) (oc : Nat → DiagOutcome)
    (ts : List ScanTask) (i ti c : Nat) :
    StepSpan c (runDiagTasks total oc ts i ti c).1
      (runDiagTasks total oc ts i ti c).2.1 := by
  induction ts generalizing i ti c with
  | nil => exact stepSpan_of_no_steps rfl
  | cons t rest ih =>
    cases ho : oc i with
    | fatal m =>
      simp only [runDiagTasks, ho]
      exact stepSpan_of_single_step (by simp [stepValues])
    | ok res trace it ot =>
      simp only [runDiagTasks, ho]
      refine stepSpan_append (stepSpan_append ?_ (traceSteps_stepSpan _ _ _)) ?_
      · exact stepSpan_of_single_step (by simp [stepValues])
      · have h := ih (i + 1) (ti + 1) (traceSteps (some t.signal) c trace).2
        refine ⟨h.1, ?_, ?_⟩
        · rw [stepValues_cons_task_complete]
          exact h.2.1
        · rw [stepValues_cons_task_complete]
          exact h.2.2
    | failed m =>
      simp only [runDiagTasks, ho]
      have h := ih (i + 1) (ti + 1) c
      exact stepSpan_append (stepSpan_of_single_step (by simp [stepValues]))
        ⟨h.1, by rw [stepValues_cons_task_failed]; exact h.2.1,
          by rw [stepValues_cons_task_failed]; exact h.2.2⟩

theorem endsTerminal_cons {e : Event} {l : List Event} (he : e.isTerminal = false)
    (h : EndsTerminal l) : EndsTerminal (e :: l) := by
  obtain ⟨pre, t, rfl, ht, hpre⟩ := h
  exact ⟨e :: pre, t, rfl, ht, noTerminal_cons he hpre⟩

theorem endsTerminal_append_left {l₁ l₂ : List Event} (h₁ : NoTerminal l₁)
    (h₂ : EndsTerminal l₂) : EndsTerminal (l₁ ++ l₂) := by
  obtain ⟨pre, t, rfl, ht, hpre⟩ := h₂
  exact ⟨l₁ ++ pre, t, by rw [List.append_assoc], ht, noTerminal_append h₁ hpre⟩

theorem endsTerminal_singleton {e : Event} (he : e.isTerminal = true) :
    EndsTerminal [e] := ⟨[], e, rfl, he, noTerminal_nil⟩

theorem noTerminal_redirect (u : String) (r : String) :
    NoTerminal (if u = r then ([] : List Event)
      else [Event.step 0 ("Redirected to: " ++ u) "done" none]) := by
  split
  · exact noTerminal_nil
  · exact noTerminal_singleton rfl

theorem uploadPhase_noTerminal (req : ScanRequest) (env : Env) (c2 : Nat) :
    NoTerminal (uploadPhase req env c2).1 := by
  unfold uploadPhase
  split
  · cases env.videoFiles with
    | nil => exact noTerminal_singleton rfl
    | cons p rest =>
      cases env.uploadResult with
      | some u => exact noTerminal_cons rfl (noTerminal_singleton rfl)
      | none => exact noTerminal_singleton rfl
  · exact noTerminal_nil

theorem prepPhase_noTerminal (req : ScanRequest) (env : Env) (u : String) :
    NoTerminal (prepPhase req env u).1 := by
  unfold prepPhase
  split
  · exact runPrep_noTerminal _ _ _ _ _
  · exact noTerminal_nil

theorem endsWith_singleton (e : Event) : EndsWith [e] e := ⟨[], rfl, noTerminal_nil⟩

theorem endsWith_cons {x : Event} {l : List Event} {e : Event}
    (hx : x.isTerminal = false) (h : EndsWith l e) : EndsWith (x :: l) e := by
  obtain ⟨pre, rfl, hpre⟩ := h
  exact ⟨x :: pre, rfl, noTerminal_cons hx hpre⟩

theorem endsWith_append_left {l₁ l₂ : List Event} {e : Event} (h₁ : NoTerminal l₁)
    (h₂ : EndsWith l₂ e) : EndsWith (l₁ ++ l₂) e := by
  obtain ⟨pre, rfl, hpre⟩ := h₂
  exact ⟨l₁ ++ pre, by rw [List.append_assoc], noTerminal_append h₁ hpre⟩

theorem endsWith_endsTerminal {l : List Event} {e : Event} (ht : e.isTerminal = true)
    (h : EndsWith l e) : EndsTerminal l := by
  obtain ⟨pre, rfl, hpre⟩ := h
  exact ⟨pre, e, rfl, ht, hpre⟩

theorem endsWith_mem_terminal {l : List Event} {e x : Event} (h : EndsWith l e)
    (hx : x ∈ l) (ht : x.isTerminal = true) : x = e := by
  obtain ⟨pre, hl, hpre⟩ := h
  exact terminal_mem_snoc hpre (hl ▸ hx) ht

theorem eventGenerator_master (req : ScanRequest) (env : Env) :
    (∃ m sid, EndsWith (eventGenerator req env).1 (Event.error m sid)) ∨
    (∃ u s, env.mkdirErr = none ∧ env.urlCheck = .ok u s ∧ (200 ≤ s ∧ s < 300) ∧
      env.llmErr = none ∧ env.browserErr = none ∧ (diagPhase req env u).2.2.2 = none ∧
      env.closeErr = none ∧
      (eventGenerator req env).1 = happyEvents req env u ∧
      EndsWith (eventGenerator req env).1
        (Event.complete (diagPhase req env u).2.2.1
          (uploadPhase req env (diagPhase req env u).2.1).2.1 env.scanId
          (((diagPhase req env u).2.2.1.map fun r => r.inputTokens.getD 0).sum)
          (((diagPhase req env u).2.2.1.map fun r => r.outputTokens.getD 0).sum))) := by
  cases hm : env.mkdirErr with
  | some m =>
    exact Or.inl ⟨_, _, by
      simp only [eventGenerator, tryBody, hm]
      exact endsWith_singleton _⟩
  | none =>
    cases hu : env.urlCheck with
    | timeout =>
      exact Or.inl ⟨_, _, by
        simp only [eventGenerator, tryBody, hm, hu, List.cons_append, List.append_assoc,
          List.nil_append, List.singleton_append]
        exact endsWith_cons (by rfl) (endsWith_cons (by rfl) (endsWith_singleton _))⟩
    | netError m =>
      exact Or.inl ⟨_, _, by
        simp only [eventGenerator, tryBody, hm, hu, List.cons_append, List.append_assoc,
          List.nil_append, List.singleton_append]
        exact endsWith_cons (by rfl) (endsWith_cons (by rfl) (endsWith_singleton _))⟩
    | ok u s =>
      by_cases hs : 200 ≤ s ∧ s < 300
      · cases hl : env.llmErr with
        | some m =>
          exact Or.inl ⟨_, _, by
            simp only [eventGenerator, tryBody, hm, hu, if_pos hs, hl, List.cons_append,
              List.append_assoc, List.nil_append, List.singleton_append]
            refine endsWith_cons (by rfl) (endsWith_cons (by rfl) ?_)
            refine endsWith_append_left (noTerminal_redirect u req.url) ?_
            exact endsWith_cons (by rfl) (endsWith_singleton _)⟩
        | none =>
          cases hb : env.browserErr with
          | some m =>
            exact Or.inl ⟨_, _, by
              simp only [eventGenerator, tryBody, hm, hu, if_pos hs, hl, hb, List.cons_append,
                List.append_assoc, List.nil_append, List.singleton_append]
              refine endsWith_cons (by rfl) (endsWith_cons (by rfl) ?_)
              refine endsWith_append_left (noTerminal_redirect u req.url) ?_
              exact endsWith_cons (by rfl) (endsWith_cons (by rfl) (endsWith_singleton _))⟩
          | none =>
            cases hf : (diagPhase req env u).2.2.2 with
            | some m =>
              exact Or.inl ⟨_, _, by
                simp only [eventGenerator, tryBody, hm, hu, if_pos hs, hl, hb, hf,
                  List.cons_append, List.append_assoc, List.nil_append, List.singleton_append]
                refine endsWith_cons (by rfl) (endsWith_cons (by rfl) ?_)
                refine endsWith_append_left (noTerminal_redirect u req.url) ?_
                refine endsWith_cons (by rfl) (endsWith_cons (by rfl) (endsWith_cons (by rfl) ?_))
                refine endsWith_append_left (prepPhase_noTerminal req env u) ?_
                refine endsWith_append_left (runDiag_noTerminal _ _ _ _ _ _) ?_
                exact endsWith_singleton _⟩
            | none =>
              cases hc : env.closeErr with
              | some m =>
                exact Or.inl ⟨_, _, by
                  simp only [eventGenerator, tryBody, hm, hu, if_pos hs, hl, hb, hf,
                    happyTail, hc, List.cons_append, List.append_assoc, List.nil_append,
                    List.singleton_append]
                  refine endsWith_cons (by rfl) (endsWith_cons (by rfl) ?_)
                  refine endsWith_append_left (noTerminal_redirect u req.url) ?_
                  refine endsWith_cons (by rfl) (endsWith_cons (by rfl) (endsWith_cons (by rfl) ?_))
                  refine endsWith_append_left (prepPhase_noTerminal req env u) ?_
                  refine endsWith_append_left (runDiag_noTerminal _ _ _ _ _ _) ?_
                  exact endsWith_cons (by rfl) (endsWith_singleton _)⟩
              | none =>
                refine Or.inr ⟨u, s, rfl, rfl, hs, rfl, rfl, hf, rfl, ?_, ?_⟩
                · simp only [eventGenerator, tryBody, hm, hu, if_pos hs, hl, hb, hf,
                    happyTail, hc, happyEvents, List.cons_append, List.append_assoc,
                    List.nil_append, List.singleton_append]
                · simp only [eventGenerator, tryBody, hm, hu, if_pos hs, hl, hb, hf,
                    happyTail, hc, List.cons_append, List.append_assoc, List.nil_append,
                    List.singleton_append]
                  refine endsWith_cons (by rfl) (endsWith_cons (by rfl) ?_)
                  refine endsWith_append_left (noTerminal_redirect u req.url) ?_
                  refine endsWith_cons (by rfl) (endsWith_cons (by rfl) (endsWith_cons (by rfl) ?_))
                  refine endsWith_append_left (prepPhase_noTerminal req env u) ?_
                  refine endsWith_append_left (runDiag_noTerminal _ _ _ _ _ _) ?_
                  refine endsWith_cons (by rfl) (endsWith_cons (by rfl) ?_)
                  refine endsWith_append_left (uploadPhase_noTerminal req env _) ?_
                  exact endsWith_singleton _
      · exact Or.inl ⟨_, _, by
          simp only [eventGenerator, tryBody, hm, hu, if_neg hs, List.cons_append,
            List.append_assoc, List.nil_append, List.singleton_append]
          refine endsWith_cons (by rfl) (endsWith_cons (by rfl) ?_)
          refine endsWith_append_left (noTerminal_redirect u req.url) ?_
          exact endsWith_singleton _⟩

/-- Claim C1: every run of the orchestrator emits exactly one terminal
event (`complete` or `error`, never both), and it is the last event of
the stream. -/
theorem terminal_event_unique_and_last (req : ScanRequest) (env : Env) :
    EndsTerminal (eventGenerator req env).1 := by
  rcases eventGenerator_master req env with ⟨m, sid, h⟩ | ⟨u, s, _, _, _, _, _, _, _, _, h⟩
  · exact endsWith_endsTerminal (by rfl) h
  · exact endsWith_endsTerminal (by rfl) h

theorem runDiag_signals (total : Nat) (oc : Nat → DiagOutcome) (ts : List ScanTask)
    (i ti c : Nat) (h : (runDiagTasks total oc ts i ti c).2.2.2 = none) :
    (runDiagTasks total oc ts i ti c).2.2.1.map TaskResult.signal =
      ts.map ScanTask.signal := by
  induction ts generalizing i ti c with
  | nil => simp [runDiagTasks]
  | cons t rest ih =>
    cases ho : oc i with
    | fatal m =>
      simp only [runDiagTasks, ho] at h
      cases h
    | ok res trace it ot =>
      simp only [runDiagTasks, ho] at h ⊢
      simp only [List.map_cons]
      rw [ih _ _ _ h]
    | failed m =>
      simp only [runDiagTasks, ho] at h ⊢
      simp only [List.map_cons]
      rw [ih _ _ _ h]

theorem runDiag_inputTokens (total : Nat) (oc : Nat → DiagOutcome) (ts : List ScanTask)
    (i ti c : Nat) (h : (runDiagTasks total oc ts i ti c).2.2.2 = none) :
    (runDiagTasks total oc ts i ti c).2.2.1.map (fun x => x.inputTokens.getD 0) =
      expectedInputTokens oc i ts := by
  induction ts generalizing i ti c with
  | nil => simp [runDiagTasks, expectedInputTokens]
  | cons t rest ih =>
    cases ho : oc i with
    | fatal m =>
      simp only [runDiagTasks, ho] at h
      cases h
    | ok res trace it ot =>
      simp only [runDiagTasks, ho] at h ⊢
      simp only [List.map_cons, expectedInputTokens, ho, DiagOutcome.inputTok]
      rw [ih _ _ _ h]
      simp
    | failed m =>
      simp only [runDiagTasks, ho] at h ⊢
      simp only [List.map_cons, expectedInputTokens, ho, DiagOutcome.inputTok]
      rw [ih _ _ _ h]
      simp

theorem runDiag_outputTokens (total : Nat) (oc : Nat → DiagOutcome) (ts : List ScanTask)
    (i ti c : Nat) (h : (runDiagTasks total oc ts i ti c).2.2.2 = none) :
    (runDiagTasks total oc ts i ti c).2.2.1.map (fun x => x.outputTokens.getD 0) =
      expectedOutputTokens oc i ts := by
  induction ts generalizing i ti c with
  | nil => simp [runDiagTasks, expectedOutputTokens]
  | cons t rest ih =>
    cases ho : oc i with
    | fatal m =>
      simp only [runDiagTasks, ho] at h
      cases h
    | ok res trace it ot =>
      simp only [runDiagTasks, ho] at h ⊢
      simp only [List.map_cons, expectedOutputTokens, ho, DiagOutcome.outputTok]
      rw [ih _ _ _ h]
      simp
    | failed m =>
      simp only [runDiagTasks, ho] at h ⊢
      simp only [List.map_cons, expectedOutputTokens, ho, DiagOutcome.outputTok]
      rw [ih _ _ _ h]
      simp

theorem runDiag_progressSignals (total : Nat) (oc : Nat → DiagOutcome)
    (ts : List ScanTask) (i ti c : Nat)
    (h : (runDiagTasks total oc ts i ti c).2.2.2 = none) :
    progressSignals (runDiagTasks total oc ts i ti c).1 = ts.map ScanTask.signal := by
  induction ts generalizing i ti c with
  | nil => simp [runDiagTasks, progressSignals]
  | cons t rest ih =>
    cases ho : oc i with
    | fatal m =>
      simp only [runDiagTasks, ho] at h
      cases h
    | ok res trace it ot =>
      simp only [runDiagTasks, ho] at h ⊢
      have htr := traceSteps_progressSignals (some t.signal) c trace
      simp only [progressSignals, List.filterMap_append, List.filterMap_cons] at htr ⊢
      simp only [htr]
      have := ih (i + 1) (ti + 1) (traceSteps (some t.signal) c trace).2 h
      simp only [progressSignals] at this
      simp [this]
    | failed m =>
      simp only [runDiagTasks, ho] at h ⊢
      simp only [progressSignals, List.filterMap_append, List.filterMap_cons]
      have := ih (i + 1) (ti + 1) c h
      simp only [progressSignals] at this
      simp [this]

theorem runDiag_taskEventSignals (total : Nat) (oc : Nat → DiagOutcome)
    (ts : List ScanTask) (i ti c : Nat)
    (h : (runDiagTasks total oc ts i ti c).2.2.2 = none) :
    taskEventSignals (runDiagTasks total oc ts i ti c).1 = ts.map ScanTask.signal := by
  induction ts generalizing i ti c with
  | nil => simp [runDiagTasks, taskEventSignals]
  | cons t rest ih =>
    cases ho : oc i with
    | fatal m =>
      simp only [runDiagTasks, ho] at h
      cases h
    | ok res trace it ot =>
      simp only [runDiagTasks, ho] at h ⊢
      have htr := traceSteps_taskEventSignals (some t.signal) c trace
      simp only [taskEventSignals, List.filterMap_append, List.filterMap_cons] at htr ⊢
      simp only [htr]
      have := ih (i + 1) (ti + 1) (traceSteps (some t.signal) c trace).2 h
      simp only [taskEventSignals] at this
      simp [this]
    | failed m =>
      simp only [runDiagTasks, ho] at h ⊢
      simp only [taskEventSignals, List.filterMap_append, List.filterMap_cons]
      have := ih (i + 1) (ti + 1) c h
      simp only [taskEventSignals] at this
      simp [this]

theorem complete_pin (req : ScanRequest) (env : Env) (r : List TaskResult)
    (v : Option String) (sid : String) (tin tout : Nat)
    (h : Event.complete r v sid tin tout ∈ (eventGenerator req env).1) :
    ∃ u, (diagPhase req env u).2.2.2 = none ∧ sid = env.scanId ∧
      r = (diagPhase req env u).2.2.1 ∧
      v = (uploadPhase req env (diagPhase req env u).2.1).2.1 ∧
      tin = (r.map fun x => x.inputTokens.getD 0).sum ∧
      tout = (r.map fun x => x.outputTokens.getD 0).sum ∧
      (eventGenerator req env).1 = happyEvents req env u := by
  rcases eventGenerator_master req env with ⟨m, sd, hw⟩ | ⟨u, s, _, _, _, _, _, hf, _, heq, hw⟩
  · have hx := endsWith_mem_terminal hw h (by rfl)
    cases hx
  · have hx := endsWith_mem_terminal hw h (by rfl)
    injection hx with h1 h2 h3 h4 h5
    exact ⟨u, hf, h3, h1, h2, by rw [h4, h1], by rw [h5, h1], heq⟩

/-- Claim C2: whenever the stream ends with a `complete` event, its
`results` field has exactly one entry per diagnostic task, in the
caller's input order (signals match positionally), regardless of
individual task success or failure. -/
theorem complete_results_match_tasks (req : ScanRequest) (env : Env)
    (r : List TaskResult) (v : Option String) (sid : String) (tin tout : Nat)
    (h : Event.complete r v sid tin tout ∈ (eventGenerator req env).1) :
    r.length = req.tasks.length ∧
    r.map TaskResult.signal = req.tasks.map ScanTask.signal := by
  obtain ⟨u, hf, _, hr, _, _, _, _⟩ := complete_pin req env r v sid tin tout h
  have hsig : r.map TaskResult.signal = req.tasks.map ScanTask.signal := by
    rw [hr]
    exact runDiag_signals _ _ _ _ _ _ hf
  constructor
  · have := congrArg List.length hsig
    simpa using this
  · exact hsig

/-- Witness for `complete_results_match_tasks` on the concrete happy
run: two tasks in, two results out, signals in input order. -/
theorem complete_results_match_tasks_witness :
    resultsHappy.length = reqMain.tasks.length ∧
    resultsHappy.map TaskResult.signal = reqMain.tasks.map ScanTask.signal :=
  complete_results_match_tasks reqMain envHappy resultsHappy (some "https://r/v")
    "abc12345" 5 7 (by decide)

/-- Claim C8: the `complete` event's token totals are the sums of the
per-task token counts over the diagnostic tasks only (a task reporting
no counts contributes 0, a failed task contributes 0); the prep task's
counts are reported in its own `task_complete` event and are not summed
into the totals. -/
theorem complete_totals_sum_diag_tokens (req : ScanRequest) (env : Env)
    (r : List TaskResult) (v : Option String) (sid : String) (tin tout : Nat)
    (h : Event.complete r v sid tin tout ∈ (eventGenerator req env).1) :
    tin = (expectedInputTokens env.taskOutcome 0 req.tasks).sum ∧
    tout = (expectedOutputTokens env.taskOutcome 0 req.tasks).sum ∧
    (∀ p tr it ot, req.prep_prompt = some p → p ≠ "" → env.prepOutcome = .ok tr it ot →
      Event.task_complete "prep" "Prep action completed" (it.getD 0) (ot.getD 0) ∈
        (eventGenerator req env).1) := by
  obtain ⟨u, hf, _, hr, _, htin, htout, heq⟩ :=
    complete_pin req env r v sid tin tout h
  refine ⟨?_, ?_, ?_⟩
  · rw [htin, hr]
    exact congrArg List.sum (runDiag_inputTokens _ _ _ _ _ _ hf)
  · rw [htout, hr]
    exact congrArg List.sum (runDiag_outputTokens _ _ _ _ _ _ hf)
  · intro p tr it ot hp hpne hok
    have hhp : hasPrep req = true := by simp [hasPrep, hp, hpne]
    have hmem : Event.task_complete "prep" "Prep action completed" (it.getD 0) (ot.getD 0) ∈
        (prepPhase req env u).1 := by
      simp only [prepPhase, hhp, if_true, hp, hok]
      simp [runPrep, hp, hok]
    rw [heq]
    simp only [happyEvents, List.mem_cons, List.mem_append]
    tauto

/-- Witness for `complete_totals_sum_diag_tokens`: totals 5/7 match the
oracle sums on the happy run, and with a successful prep the prep
tokens 2/3 appear in the prep `task_complete` event. -/
theorem complete_totals_sum_diag_tokens_witness :
    ((5 : Nat) = (expectedInputTokens envHappy.taskOutcome 0 reqMain.tasks).sum ∧
     (7 : Nat) = (expectedOutputTokens envHappy.taskOutcome 0 reqMain.tasks).sum) ∧
    Event.task_complete "prep" "Prep action completed" 2 3 ∈
      (eventGenerator reqMain envPrepOk).1 := by
  have h1 := complete_totals_sum_diag_tokens reqMain envHappy resultsHappy
    (some "https://r/v") "abc12345" 5 7 (by decide)
  have h2 := complete_totals_sum_diag_tokens reqMain envPrepOk resultsHappy
    (some "https://r/v") "abc12345" 5 7 (by decide)
  exact ⟨⟨h1.1, h1.2.1⟩,
    h2.2.2 "accept cookies" ["p1"] (some 2) (some 3) rfl (by decide) rfl⟩

theorem progressSignals_append (l₁ l₂ : List Event) :
    progressSignals (l₁ ++ l₂) = progressSignals l₁ ++ progressSignals l₂ :=
  List.filterMap_append l₁ l₂ _

theorem progressSignals_cons_start (s m : String) (tot : Nat) (l : List Event) :
    progressSignals (Event.start s m tot :: l) = progressSignals l := rfl

theorem progressSignals_cons_step (n : Nat) (a st : String) (sg : Option String)
    (l : List Event) : progressSignals (Event.step n a st sg :: l) = progressSignals l := rfl

theorem progressSignals_cons_progress (ti tot : Nat) (s nm : String) (l : List Event) :
    progressSignals (Event.progress ti tot s nm :: l) = s :: progressSignals l := rfl

theorem progressSignals_cons_task_complete (s o : String) (a b : Nat) (l : List Event) :
    progressSignals (Event.task_complete s o a b :: l) = progressSignals l := rfl

theorem progressSignals_cons_task_failed (s e : String) (l : List Event) :
    progressSignals (Event.task_failed s e :: l) = progressSignals l := rfl

theorem progressSignals_cons_complete (r : List TaskResult) (v : Option String)
    (s : String) (a b : Nat) (l : List Event) :
    progressSignals (Event.complete r v s a b :: l) = progressSignals l := rfl

theorem progressSignals_cons_error (m : String) (sid : Option String) (l : List Event) :
    progressSignals (Event.error m sid :: l) = progressSignals l := rfl

theorem taskEventSignals_append (l₁ l₂ : List Event) :
    taskEventSignals (l₁ ++ l₂) = taskEventSignals l₁ ++ taskEventSignals l₂ :=
  List.filterMap_append l₁ l₂ _

theorem taskEventSignals_cons_start (s m : String) (tot : Nat) (l : List Event) :
    taskEventSignals (Event.start s m tot :: l) = taskEventSignals l := rfl

theorem taskEventSignals_cons_step (n : Nat) (a st : String) (sg : Option String)
    (l : List Event) : taskEventSignals (Event.step n a st sg :: l) = taskEventSignals l := rfl

theorem taskEventSignals_cons_progress (ti tot : Nat) (s nm : String) (l : List Event) :
    taskEventSignals (Event.progress ti tot s nm :: l) = taskEventSignals l := rfl

theorem taskEventSignals_cons_task_complete (s o : String) (a b : Nat) (l : List Event) :
    taskEventSignals (Event.task_complete s o a b :: l) = s :: taskEventSignals l := rfl

theorem taskEventSignals_cons_task_failed (s e : String) (l : List Event) :
    taskEventSignals (Event.task_failed s e :: l) = s :: taskEventSignals l := rfl

theorem taskEventSignals_cons_complete (r : List TaskResult) (v : Option String)
    (s : String) (a b : Nat) (l : List Event) :
    taskEventSignals (Event.complete r v s a b :: l) = taskEventSignals l := rfl

theorem taskEventSignals_cons_error (m : String) (sid : Option String) (l : List Event) :
    taskEventSignals (Event.error m sid :: l) = taskEventSignals l := rfl

theorem progressSignals_redirect (u r : String) :
    progressSignals (if u = r then ([] : List Event)
      else [Event.step 0 ("Redirected to: " ++ u) "done" none]) = [] := by
  split
  · rfl
  · rfl

theorem taskEventSignals_redirect (u r : String) :
    taskEventSignals (if u = r then ([] : List Event)
      else [Event.step 0 ("Redirected to: " ++ u) "done" none]) = [] := by
  split
  · rfl
  · rfl

theorem prepPhase_progressSignals (req : ScanRequest) (env : Env) (u : String)
    (hp : hasPrep req = true) : progressSignals (prepPhase req env u).1 = ["prep"] := by
  simp only [prepPhase, hp, if_true]
  exact runPrep_progressSignals _ _ _ _ _

theorem prepPhase_taskEventSignals (req : ScanRequest) (env : Env) (u : String)
    (hp : hasPrep req = true) : taskEventSignals (prepPhase req env u).1 = ["prep"] := by
  simp only [prepPhase, hp, if_true]
  exact runPrep_taskEventSignals _ _ _ _ _

theorem diagPhase_progressSignals (req : ScanRequest) (env : Env) (u : String)
    (hf : (diagPhase req env u).2.2.2 = none) :
    progressSignals (diagPhase req env u).1 = req.tasks.map ScanTask.signal := by
  unfold diagPhase at hf ⊢
  exact runDiag_progressSignals _ _ _ _ _ _ hf

theorem diagPhase_taskEventSignals (req : ScanRequest) (env : Env) (u : String)
    (hf : (diagPhase req env u).2.2.2 = none) :
    taskEventSignals (diagPhase req env u).1 = req.tasks.map ScanTask.signal := by
  unfold diagPhase at hf ⊢
  exact runDiag_taskEventSignals _ _ _ _ _ _ hf

theorem uploadPhase_progressSignals (req : ScanRequest) (env : Env) (c2 : Nat) :
    progressSignals (uploadPhase req env c2).1 = [] := by
  unfold uploadPhase
  split
  · cases env.videoFiles with
    | nil => rfl
    | cons p rest =>
      cases env.uploadResult with
      | some v => rfl
      | none => rfl
  · rfl

theorem uploadPhase_taskEventSignals (req : ScanRequest) (env : Env) (c2 : Nat) :
    taskEventSignals (uploadPhase req env c2).1 = [] := by
  unfold uploadPhase
  split
  · cases env.videoFiles with
    | nil => rfl
    | cons p rest =>
      cases env.uploadResult with
      | some v => rfl
      | none => rfl
  · rfl

theorem prepPhase_failed_mem (req : ScanRequest) (env : Env) (u : String)
    (hp : hasPrep req = true)
    (hfail : env.prepOutcome = .timeout ∨ ∃ m, env.prepOutcome = .failure m) :
    ∃ e, Event.task_failed "prep" e ∈ (prepPhase req env u).1 := by
  rcases hfail with hf | ⟨m, hf⟩
  · refine ⟨"Prep action timed out after 60 seconds. URL may be unreachable: " ++ u, ?_⟩
    simp [prepPhase, hp, hf, runPrep]
  · refine ⟨"Prep action failed: " ++ m.take 200, ?_⟩
    simp [prepPhase, hp, hf, runPrep]

/-- Claim C7: if the prep task times out or fails, a `task_failed`
event with signal "prep" is emitted, and every diagnostic task is still
executed afterward (one `progress` and one `task_complete`/`task_failed`
event per diagnostic task, in input order) — prep failure never skips
the diagnostic phase. -/
theorem prep_failure_continues_diagnostics (req : ScanRequest) (env : Env)
    (u : String) (s : Nat)
    (hm : env.mkdirErr = none) (hu : env.urlCheck = .ok u s)
    (hs : 200 ≤ s ∧ s < 300) (hl : env.llmErr = none) (hb : env.browserErr = none)
    (hp : hasPrep req = true)
    (hfail : env.prepOutcome = .timeout ∨ ∃ m, env.prepOutcome = .failure m)
    (hf : (diagPhase req env u).2.2.2 = none) :
    (∃ e, Event.task_failed "prep" e ∈ (eventGenerator req env).1) ∧
    progressSignals (eventGenerator req env).1 =
      "prep" :: req.tasks.map ScanTask.signal ∧
    taskEventSignals (eventGenerator req env).1 =
      "prep" :: req.tasks.map ScanTask.signal := by
  cases hc : env.closeErr with
  | some m =>
    simp only [eventGenerator, tryBody, hm, hu, if_pos hs, hl, hb, hf, happyTail, hc,
      List.cons_append, List.append_assoc, List.nil_append, List.singleton_append]
    refine ⟨?_, ?_, ?_⟩
    · obtain ⟨e, he⟩ := prepPhase_failed_mem req env u hp hfail
      exact ⟨e, by simp [he]⟩
    · simp only [progressSignals_cons_start, progressSignals_cons_step,
        progressSignals_append, progressSignals_redirect,
        prepPhase_progressSignals req env u hp, diagPhase_progressSignals req env u hf,
        progressSignals_cons_error]
      simp [progressSignals]
    · simp only [taskEventSignals_cons_start, taskEventSignals_cons_step,
        taskEventSignals_append, taskEventSignals_redirect,
        prepPhase_taskEventSignals req env u hp, diagPhase_taskEventSignals req env u hf,
        taskEventSignals_cons_error]
      simp [taskEventSignals]
  | none =>
    simp only [eventGenerator, tryBody, hm, hu, if_pos hs, hl, hb, hf, happyTail, hc,
      List.cons_append, List.append_assoc, List.nil_append, List.singleton_append]
    refine ⟨?_, ?_, ?_⟩
    · obtain ⟨e, he⟩ := prepPhase_failed_mem req env u hp hfail
      exact ⟨e, by simp [he]⟩
    · simp only [progressSignals_cons_start, progressSignals_cons_step,
        progressSignals_append, progressSignals_redirect,
        prepPhase_progressSignals req env u hp, diagPhase_progressSignals req env u hf,
        uploadPhase_progressSignals, progressSignals_cons_complete]
      simp [progressSignals]
    · simp only [taskEventSignals_cons_start, taskEventSignals_cons_step,
        taskEventSignals_append, taskEventSignals_redirect,
        prepPhase_taskEventSignals req env u hp, diagPhase_taskEventSignals req env u hf,
        uploadPhase_taskEventSignals, taskEventSignals_cons_complete]
      simp [taskEventSignals]

/-- Witness for `prep_failure_continues_diagnostics`: on the concrete
run whose prep times out, both diagnostic tasks still run. -/
theorem prep_failure_continues_diagnostics_witness :
    progressSignals (eventGenerator reqMain envHappy).1 = ["prep", "sigA", "sigB"] := by
  have h := prep_failure_continues_diagnostics reqMain envHappy "http://e.com" 200
    rfl rfl (by omega) rfl rfl (by decide) (Or.inl rfl) (by decide)
  exact h.2.1

theorem chain_le_cons_zero {l : List Nat} (h : List.Chain' (· ≤ ·) l) :
    List.Chain' (· ≤ ·) (0 :: l) :=
  List.chain'_cons'.mpr ⟨fun y _ => Nat.zero_le y, h⟩

theorem prepPhase_stepSpan (req : ScanRequest) (env : Env) (u : String) :
    StepSpan 0 (prepPhase req env u).1 (prepPhase req env u).2 := by
  unfold prepPhase
  split
  · exact runPrep_stepSpan _ _ _ _ _
  · exact stepSpan_of_no_steps rfl

theorem diagPhase_stepSpan (req : ScanRequest) (env : Env) (u : String) :
    StepSpan (prepPhase req env u).2 (diagPhase req env u).1
      (diagPhase req env u).2.1 := by
  unfold diagPhase
  exact runDiag_stepSpan _ _ _ _ _ _

theorem uploadPhase_stepSpan (req : ScanRequest) (env : Env) (c2 : Nat) :
    StepSpan (c2 + 1) (uploadPhase req env c2).1 (c2 + 1) := by
  unfold uploadPhase
  split
  · cases env.videoFiles with
    | nil => exact stepSpan_of_single_step (by simp [stepValues])
    | cons p rest =>
      cases env.uploadResult with
      | some v =>
        refine ⟨le_refl _, ?_, ?_⟩
        · simp only [stepValues_cons_step, stepValues_nil]
          exact List.chain'_cons.mpr ⟨le_refl _, List.chain'_singleton _⟩
        · intro w hw
          simp only [stepValues_cons_step, stepValues_nil, List.mem_cons,
            List.mem_singleton] at hw
          rcases hw with h | h | h
          · omega
          · omega
          · cases h
      | none => exact stepSpan_of_single_step (by simp [stepValues])
  · exact stepSpan_of_no_steps rfl

theorem closeTail_stepSpan (req : ScanRequest) (env : Env) (c2 : Nat)
    (rest : List Event) (hrest : stepValues rest = []) :
    StepSpan c2 (Event.step (c2 + 1) "Closing browser" "running" none ::
      Event.step (c2 + 1) "Browser closed" "done" none ::
      ((uploadPhase req env c2).1 ++ rest)) (c2 + 1) := by
  have hup := uploadPhase_stepSpan req env c2
  refine ⟨by omega, ?_, ?_⟩
  · rw [stepValues_cons_step, stepValues_cons_step, stepValues_append, hrest,
      List.append_nil]
    refine List.chain'_cons'.mpr ⟨?_, List.chain'_cons'.mpr ⟨?_, hup.2.1⟩⟩
    · intro y hy
      simp only [List.head?_cons, Option.mem_def, Option.some.injEq] at hy
      omega
    · intro y hy
      have hmem : y ∈ stepValues (uploadPhase req env c2).1 := List.mem_of_mem_head? hy
      have := (hup.2.2 y hmem).1
      omega
  · intro v hv
    rw [stepValues_cons_step, stepValues_cons_step, stepValues_append, hrest,
      List.append_nil] at hv
    rcases List.mem_cons.mp hv with h | h
    · omega
    · rcases List.mem_cons.mp h with h2 | h2
      · omega
      · have := hup.2.2 v h2
        omega

/-- Claim C4 (amended): within one session the step values carried by
the `step` events are driven by the single shared counter, never reset:
they start at 0 and are non-decreasing across prep and all diagnostic
tasks.  (They are not strictly increasing: bracketing and same-step
events reuse the current value, see the counterexample.) -/
theorem step_values_monotone (req : ScanRequest) (env : Env) :
    List.Chain' (· ≤ ·) (stepValues (eventGenerator req env).1) ∧
    (stepValues (eventGenerator req env).1).headD 0 = 0 := by
  cases hm : env.mkdirErr with
  | some m =>
    simp only [eventGenerator, tryBody, hm]
    exact ⟨List.chain'_nil, rfl⟩
  | none =>
    cases hu : env.urlCheck with
    | timeout =>
      simp only [eventGenerator, tryBody, hm, hu]
      exact ⟨by simp [stepValues], rfl⟩
    | netError m =>
      simp only [eventGenerator, tryBody, hm, hu]
      exact ⟨by simp [stepValues], rfl⟩
    | ok u s =>
      by_cases hs : 200 ≤ s ∧ s < 300
      · cases hl : env.llmErr with
        | some m =>
          simp only [eventGenerator, tryBody, hm, hu, if_pos hs, hl, List.cons_append,
            List.append_assoc, List.nil_append, List.singleton_append]
          by_cases hur : u = req.url <;>
            simp [hur, stepValues, List.chain'_cons]
        | none =>
          cases hb : env.browserErr with
          | some m =>
            simp only [eventGenerator, tryBody, hm, hu, if_pos hs, hl, hb,
              List.cons_append, List.append_assoc, List.nil_append, List.singleton_append]
            by_cases hur : u = req.url <;>
              simp [hur, stepValues, List.chain'_cons]
          | none =>
            cases hf : (diagPhase req env u).2.2.2 with
            | some m =>
              simp only [eventGenerator, tryBody, hm, hu, if_pos hs, hl, hb, hf,
                List.cons_append, List.append_assoc, List.nil_append,
                List.singleton_append]
              have hspan := stepSpan_append (prepPhase_stepSpan req env u)
                (stepSpan_mono_right (diagPhase_stepSpan req env u) (le_refl _))
              have hch := hspan.2.1
              constructor
              · simp only [stepValues_cons_start, stepValues_cons_step,
                  stepValues_cons_error, stepValues_append, stepValues_nil,
                  List.append_nil] at hch ⊢
                by_cases hur : u = req.url
                · simp only [if_pos hur, List.nil_append]
                  exact chain_le_cons_zero (chain_le_cons_zero (chain_le_cons_zero
                    (chain_le_cons_zero hch)))
                · simp only [if_neg hur, stepValues_cons_step, stepValues_nil,
                    List.cons_append, List.nil_append]
                  exact chain_le_cons_zero (chain_le_cons_zero (chain_le_cons_zero
                    (chain_le_cons_zero (chain_le_cons_zero hch))))
              · simp [stepValues]
            | none =>
              cases hc : env.closeErr with
              | some m =>
                simp only [eventGenerator, tryBody, hm, hu, if_pos hs, hl, hb, hf,
                  happyTail, hc, List.cons_append, List.append_assoc, List.nil_append,
                  List.singleton_append]
                have hcl : StepSpan (diagPhase req env u).2.1
                    (Event.step ((diagPhase req env u).2.1 + 1) "Closing browser"
                      "running" none ::
                     [Event.error m (some env.scanId)]) (diagPhase req env u).2.1 :=
                  stepSpan_of_single_step (by simp [stepValues])
                have hspan := stepSpan_append (prepPhase_stepSpan req env u)
                  (stepSpan_append (diagPhase_stepSpan req env u) hcl)
                have hch := hspan.2.1
                constructor
                · simp only [stepValues_cons_start, stepValues_cons_step,
                    stepValues_cons_error, stepValues_append, stepValues_nil,
                    List.append_nil] at hch ⊢
                  by_cases hur : u = req.url
                  · simp only [if_pos hur, List.nil_append]
                    exact chain_le_cons_zero (chain_le_cons_zero (chain_le_cons_zero
                      (chain_le_cons_zero hch)))
                  · simp only [if_neg hur, stepValues_cons_step, stepValues_nil,
                      List.cons_append, List.nil_append]
                    exact chain_le_cons_zero (chain_le_cons_zero (chain_le_cons_zero
                      (chain_le_cons_zero (chain_le_cons_zero hch))))
                · simp [stepValues]
              | none =>
                simp only [eventGenerator, tryBody, hm, hu, if_pos hs, hl, hb, hf,
                  happyTail, hc, List.cons_append, List.append_assoc, List.nil_append,
                  List.singleton_append]
                have hcl := closeTail_stepSpan req env (diagPhase req env u).2.1
                  [Event.complete (diagPhase req env u).2.2.1
                    (uploadPhase req env (diagPhase req env u).2.1).2.1 env.scanId
                    (((diagPhase req env u).2.2.1.map fun r => r.inputTokens.getD 0).sum)
                    (((diagPhase req env u).2.2.1.map fun r => r.outputTokens.getD 0).sum)]
                  rfl
                have hspan := stepSpan_append (prepPhase_stepSpan req env u)
                  (stepSpan_append (diagPhase_stepSpan req env u) hcl)
                have hch := hspan.2.1
                constructor
                · simp only [stepValues_cons_start, stepValues_cons_step,
                    stepValues_cons_complete, stepValues_append, stepValues_nil,
                    List.append_nil, List.cons_append] at hch ⊢
                  by_cases hur : u = req.url
                  · simp only [if_pos hur, List.nil_append]
                    exact chain_le_cons_zero (chain_le_cons_zero (chain_le_cons_zero
                      (chain_le_cons_zero hch)))
                  · simp only [if_neg hur, stepValues_cons_step, stepValues_nil,
                      List.cons_append, List.nil_append]
                    exact chain_le_cons_zero (chain_le_cons_zero (chain_le_cons_zero
                      (chain_le_cons_zero (chain_le_cons_zero hch))))
                · simp [stepValues]
      · simp only [eventGenerator, tryBody, hm, hu, if_neg hs, List.cons_append,
          List.append_assoc, List.nil_append, List.singleton_append]
        by_cases hur : u = req.url <;>
          simp [hur, stepValues, List.chain'_cons]

/-- Counterexample to claim C4 as stated: on a bare session the step
values are [0, 0, 0, 0, 1, 1] — the URL-check and browser-launch steps
all carry 0 and the close brackets repeat 1 — so the sequence is not
strictly increasing. -/
theorem step_values_not_strictly_increasing :
    ¬ List.Chain' (· < ·) (stepValues (eventGenerator reqBare envBare).1) := by
  have h : stepValues (eventGenerator reqBare envBare).1 = [0, 0, 0, 0, 1, 1] := by
    decide
  rw [h]
  simp [List.chain'_cons]

/-- Claim C3 (amended): when the URL check returns a non-2xx status,
the stream consists of the initial `start` event, the URL-check `step`
events (a redirect step included only when the final URL differs), and
exactly one final `error` event; no browser is launched. -/
theorem url_failure_single_error_no_browser (req : ScanRequest) (env : Env)
    (u : String) (s : Nat) (hm : env.mkdirErr = none)
    (hu : env.urlCheck = .ok u s) (hs : ¬ (200 ≤ s ∧ s < 300)) :
    (eventGenerator req env).1 =
      Event.start env.scanId "Starting scan..." (totalTasks req) ::
      Event.step 0 ("Checking URL: " ++ req.url) "running" none ::
      ((if u = req.url then []
        else [Event.step 0 ("Redirected to: " ++ u) "done" none]) ++
       [Event.error ("URL returned status " ++ toString s ++
          " (expected 200-299): " ++ u) none]) ∧
    Effect.launchBrowser ∉ (eventGenerator req env).2 := by
  constructor
  · simp [eventGenerator, tryBody, hm, hu, if_neg hs]
  · simp [eventGenerator, tryBody, hm, hu, if_neg hs]

/-- Counterexample to claim C3 as stated: on a 404 the stream has three
events (`start`, the URL-check `step`, then `error`), not exactly one
event. -/
theorem url_failure_not_single_event :
    (eventGenerator reqBare env404).1.length ≠ 1 := by
  have h : (eventGenerator reqBare env404).1.length = 3 := by decide
  omega

/-- Witness for `url_failure_single_error_no_browser` on the concrete
404 run. -/
theorem url_failure_single_error_no_browser_witness :
    (eventGenerator reqBare env404).1 =
      [Event.start "abc12345" "Starting scan..." 0,
       Event.step 0 "Checking URL: http://e.com" "running" none,
       Event.error "URL returned status 404 (expected 200-299): http://e.com" none] ∧
    Effect.launchBrowser ∉ (eventGenerator reqBare env404).2 := by
  have h := url_failure_single_error_no_browser reqBare env404 "http://e.com" 404
    rfl rfl (by omega)
  exact ⟨h.1.trans (by decide), h.2⟩

/-- Claim C5 (amended): an `error` event emitted on the fatal
orchestration path carries both the message and the session id, but an
`error` event emitted on a URL-check failure path carries only the
message — its `scanId` field is absent. -/
theorem error_event_fields_by_path (req : ScanRequest) (env : Env) :
    (∀ m, (tryBody req env).2.2 = .raised m →
      EndsWith (eventGenerator req env).1 (Event.error m (some env.scanId))) ∧
    (env.mkdirErr = none → ∀ u s, env.urlCheck = .ok u s → ¬ (200 ≤ s ∧ s < 300) →
      EndsWith (eventGenerator req env).1
        (Event.error ("URL returned status " ++ toString s ++
          " (expected 200-299): " ++ u) none)) ∧
    (env.mkdirErr = none → env.urlCheck = .timeout →
      EndsWith (eventGenerator req env).1
        (Event.error ("URL timed out after 10 seconds: " ++ req.url) none)) ∧
    (env.mkdirErr = none → ∀ m, env.urlCheck = .netError m →
      EndsWith (eventGenerator req env).1
        (Event.error ("URL is unreachable: " ++ req.url ++ ". Error: " ++ m.take 100)
          none)) := by
  refine ⟨?_, ?_, ?_, ?_⟩
  · intro m hr
    have hev : (eventGenerator req env).1 =
        (tryBody req env).1 ++ [Event.error m (some env.scanId)] := by
      simp [eventGenerator, hr]
    rcases eventGenerator_master req env with ⟨m', sid', hw⟩ |
      ⟨u, s, _, _, _, _, _, _, _, _, hw⟩
    · obtain ⟨pre, hpre, hnt⟩ := hw
      have heq2 : pre ++ [Event.error m' sid'] =
          (tryBody req env).1 ++ [Event.error m (some env.scanId)] :=
        hpre.symm.trans hev
      have hlast := congrArg List.getLast? heq2
      rw [List.getLast?_concat, List.getLast?_concat] at hlast
      injection hlast with hE
      exact hE ▸ ⟨pre, hpre, hnt⟩
    · obtain ⟨pre, hpre, hnt⟩ := hw
      have heq2 := hpre.symm.trans hev
      have hlast := congrArg List.getLast? heq2
      rw [List.getLast?_concat, List.getLast?_concat] at hlast
      injection hlast with hE
      cases hE
  · intro hm u s hu hs
    simp only [eventGenerator, tryBody, hm, hu, if_neg hs, List.cons_append,
      List.append_assoc, List.nil_append, List.singleton_append]
    refine endsWith_cons (by rfl) (endsWith_cons (by rfl) ?_)
    refine endsWith_append_left (noTerminal_redirect u req.url) ?_
    exact endsWith_singleton _
  · intro hm hu
    simp only [eventGenerator, tryBody, hm, hu]
    exact endsWith_cons (by rfl) (endsWith_cons (by rfl) (endsWith_singleton _))
  · intro hm m hu
    simp only [eventGenerator, tryBody, hm, hu]
    exact endsWith_cons (by rfl) (endsWith_cons (by rfl) (endsWith_singleton _))

/-- Counterexample to claim C5 as stated: the 404 run emits an `error`
event whose `scanId` field is absent. -/
theorem url_error_lacks_scanid :
    ¬ ∀ e ∈ (eventGenerator reqBare env404).1, ∀ m sid, e = Event.error m sid →
      sid.isSome = true := by
  intro h
  have := h (Event.error msg404 none) (by decide) msg404 none rfl
  simp at this

/-- Witness for `error_event_fields_by_path`: a browser-launch failure
ends the stream with an `error` carrying the scan id, while the 404 run
ends with an `error` carrying no scan id. -/
theorem error_event_fields_by_path_witness :
    EndsWith (eventGenerator reqBare envRaised).1
      (Event.error "launch exploded" (some "abc12345")) ∧
    EndsWith (eventGenerator reqBare env404).1
      (Event.error ("URL returned status " ++ toString 404 ++
        " (expected 200-299): " ++ "http://e.com") none) := by
  refine ⟨?_, ?_⟩
  · exact (error_event_fields_by_path reqBare envRaised).1 "launch exploded" (by decide)
  · exact (error_event_fields_by_path reqBare env404).2.1 rfl "http://e.com" 404 rfl
      (by omega)

/-- Claim C9 (amended): the per-session recording directory is created
before the browser launches (the mkdir effect strictly precedes the
launch effect); after a successful upload the uploaded video file is
unlinked, but the directory itself is never removed by the orchestrator
— its removal is left to the retention sweeper. -/
theorem recording_dir_lifecycle (req : ScanRequest) (env : Env) (u : String)
    (s : Nat) (p : String) (rest : List String) (u' : String)
    (hm : env.mkdirErr = none) (hu : env.urlCheck = .ok u s)
    (hs : 200 ≤ s ∧ s < 300) (hl : env.llmErr = none) (hb : env.browserErr = none)
    (hf : (diagPhase req env u).2.2.2 = none) (hc : env.closeErr = none)
    (hrv : req.record_video = true) (hv : env.videoFiles = p :: rest)
    (hup : env.uploadResult = some u') :
    (eventGenerator req env).2 =
      [Effect.mkdirDir env.scanId, Effect.launchBrowser, Effect.closeBrowser,
       Effect.uploadAttempt p, Effect.unlinkFile p] ∧
    ∀ d, Effect.rmtreeDir d ∉ (eventGenerator req env).2 := by
  have heff : (eventGenerator req env).2 =
      [Effect.mkdirDir env.scanId, Effect.launchBrowser, Effect.closeBrowser,
       Effect.uploadAttempt p, Effect.unlinkFile p] := by
    simp [eventGenerator, tryBody, hm, hu, if_pos hs, hl, hb, hf, happyTail, hc,
      uploadPhase, hrv, hv, hup]
  refine ⟨heff, ?_⟩
  intro d
  rw [heff]
  simp

/-- Counterexample to claim C9 as stated: on the happy run the upload
succeeds and the video file is unlinked, yet no directory removal
happens — the recording directory outlives the session. -/
theorem upload_success_leaves_directory :
    Effect.unlinkFile vidPath ∈ (eventGenerator reqMain envHappy).2 ∧
    Effect.rmtreeDir "abc12345" ∉ (eventGenerator reqMain envHappy).2 := by
  decide

/-- Witness for `recording_dir_lifecycle` on the concrete happy run. -/
theorem recording_dir_lifecycle_witness :
    (eventGenerator reqMain envHappy).2 =
      [Effect.mkdirDir "abc12345", Effect.launchBrowser, Effect.closeBrowser,
       Effect.uploadAttempt vidPath, Effect.unlinkFile vidPath] := by
  have h := recording_dir_lifecycle reqMain envHappy "http://e.com" 200 vidPath []
    "https://r/v" rfl rfl (by omega) rfl rfl (by decide) rfl rfl rfl rfl
  exact h.1

end StreamLemmas

end AgentRank
